import Mathlib

/-!
Shallow embedding of the PC-market chat subsystem:
the chat service (`app/services/chat_service.py`), the chat API layer
(`app/api/chat.py`) and the WebSocket connection registry
(`app/websocket/connection_manager.py`), together with theorems checking
the natural-language specification against this embedding.

Database tables are embedded as Lean lists; SQLAlchemy queries become
list filters; `ORDER BY created_at DESC` becomes a stable sort on the
`created_at` field; primary-key lookups become `List.find?` on the id.
-/

namespace PCMarket

/-- Roles of `app.models.user.UserRole` as used throughout the source:
USER, SELLER, ADMIN, SUPPORT. -/
inductive UserRole where
  | user
  | seller
  | admin
  | support
deriving DecidableEq, Repr

/-- Row of the `users` table, restricted to the fields the chat subsystem
reads: id, username, role and the active flag. -/
structure User where
  id : Nat
  username : String
  role : UserRole
  is_active : Bool
deriving DecidableEq, Repr

/-- Entry of `Order.items`: what `get_order_chat` reads from an
`OrderItem` row is only `order_item.item.owner_id`. -/
structure OrderItemRow where
  item_owner_id : Nat
deriving DecidableEq, Repr

/-- Row of the `orders` table restricted to the fields the chat subsystem
reads: id, the owning buyer (`Order.user_id`) and the order items. -/
structure Order where
  id : Nat
  user_id : Nat
  items : List OrderItemRow
deriving DecidableEq, Repr

/-- Row of the `messages` table (`app/models/message.py`). -/
structure Message where
  id : Nat
  sender_id : Nat
  receiver_id : Nat
  order_id : Option Nat
  item_id : Option Nat
  text : String
  is_read : Bool
  is_resolved : Bool
  created_at : Nat
deriving DecidableEq, Repr

/-- Database state visible to the chat subsystem. -/
structure DB where
  users : List User
  orders : List Order
  messages : List Message
deriving DecidableEq, Repr

/-- Errors raised by the chat service (`app/core/exceptions.py`):
`NotFoundError(entity, id)` and `AuthorizationError`. -/
inductive ChatError where
  | notFound (entity : String) (entity_id : Nat)
  | authorization
deriving DecidableEq, Repr

/-- Primary-key lookup in the `users` table. -/
def findUser (db : DB) (uid : Nat) : Option User :=
  db.users.find? (fun u => u.id == uid)

/-- Primary-key lookup in the `orders` table. -/
def findOrder (db : DB) (oid : Nat) : Option Order :=
  db.orders.find? (fun o => o.id == oid)

/-- Query `select(User).where(User.role == SUPPORT, User.is_active == True).limit(1)`:
the first active SUPPORT-role user, i.e. the canonical support identity. -/
def firstActiveSupport (db : DB) : Option User :=
  db.users.find? (fun u => u.role == UserRole.support && u.is_active)

/-- Predicate of the SQL clause
`or_(and_(sender == u1, receiver == u2), and_(sender == u2, receiver == u1))`. -/
def betweenPair (m : Message) (u1 u2 : Nat) : Bool :=
  (m.sender_id == u1 && m.receiver_id == u2) ||
    (m.sender_id == u2 && m.receiver_id == u1)

/-- Python truthiness of an `Optional[int]`: `None` and `0` are falsy. -/
def optTruthy (o : Option Nat) : Bool :=
  o.getD 0 != 0

/-- Ordering relation of `ORDER BY Message.created_at DESC`. -/
def createdDescRel (a b : Message) : Prop :=
  b.created_at ≤ a.created_at

/-- Ordering relation of `ORDER BY Message.created_at ASC`. -/
def createdAscRel (a b : Message) : Prop :=
  a.created_at ≤ b.created_at

instance : DecidableRel createdDescRel :=
  fun a b => Nat.decLe b.created_at a.created_at

instance : DecidableRel createdAscRel :=
  fun a b => Nat.decLe a.created_at b.created_at

instance : IsTotal Message createdDescRel :=
  ⟨fun a b => (Nat.le_total b.created_at a.created_at).elim Or.inl Or.inr⟩

instance : IsTrans Message createdDescRel :=
  ⟨fun _ _ _ h1 h2 => Nat.le_trans h2 h1⟩

instance : IsTotal Message createdAscRel :=
  ⟨fun a b => (Nat.le_total a.created_at b.created_at).elim Or.inl Or.inr⟩

instance : IsTrans Message createdAscRel :=
  ⟨fun _ _ _ h1 h2 => Nat.le_trans h1 h2⟩

/-- Stable sort of messages by `created_at` descending,
embedding `ORDER BY Message.created_at DESC`. -/
def sortByCreatedDesc (msgs : List Message) : List Message :=
  List.insertionSort createdDescRel msgs

/-- Stable sort of messages by `created_at` ascending,
embedding `ORDER BY Message.created_at ASC`. -/
def sortByCreatedAsc (msgs : List Message) : List Message :=
  List.insertionSort createdAscRel msgs

/-- Embedding of `ChatService.send_message`: check the receiver exists,
check the order exists when an order id is given (Python `if order_id:`),
then insert the message row with `is_read=False`, `is_resolved=False`.
The fresh primary key and the `created_at` timestamp are passed in
explicitly. -/
def ChatService.send_message (db : DB) (sender_id receiver_id : Nat)
    (text : String) (order_id item_id : Option Nat) (next_id now : Nat) :
    Except ChatError (DB × Message) :=
  match findUser db receiver_id with
  | none => .error (.notFound "User" receiver_id)
  | some _ =>
    if optTruthy order_id && (findOrder db (order_id.getD 0)).isNone then
      .error (.notFound "Order" (order_id.getD 0))
    else
      let m : Message :=
        { id := next_id, sender_id := sender_id, receiver_id := receiver_id,
          order_id := order_id, item_id := item_id, text := text,
          is_read := false, is_resolved := false, created_at := now }
      .ok ({ db with messages := db.messages ++ [m] }, m)

/-- Sender-substitution logic of the `POST /chat/messages` handler
(`app/api/chat.py`, `send_message`): when the caller is an ADMIN and the
receiver exists with role USER, the persisted sender becomes the first
active SUPPORT user when one exists; in every other case the caller's own
id is used. -/
def effectiveSenderId (db : DB) (current : User) (receiver_id : Nat) : Nat :=
  if current.role == UserRole.admin then
    match findUser db receiver_id with
    | some r =>
      if r.role == UserRole.user then
        match firstActiveSupport db with
        | some s => s.id
        | none => current.id
      else current.id
    | none => current.id
  else current.id

/-- Embedding of the `POST /chat/messages` handler: compute the effective
sender id, then persist through `ChatService.send_message`. -/
def apiSendMessage (db : DB) (current : User) (receiver_id : Nat)
    (text : String) (order_id item_id : Option Nat) (next_id now : Nat) :
    Except ChatError (DB × Message) :=
  ChatService.send_message db (effectiveSenderId db current receiver_id)
    receiver_id text order_id item_id next_id now

/-- Messages of the conversation between `u1` and `u2`, optionally
filtered by order id exactly as `ChatService.get_conversation` builds its
WHERE clause (the order filter is added only when `order_id` is truthy). -/
def conversationMessages (db : DB) (u1 u2 : Nat) (order_id : Option Nat) :
    List Message :=
  let base := db.messages.filter (fun m => betweenPair m u1 u2)
  if optTruthy order_id then base.filter (fun m => m.order_id == order_id)
  else base

/-- Embedding of `ChatService.get_conversation`: total count over the same
filter, then the newest-first page selected by skip and limit, reversed to
oldest-first before returning. -/
def ChatService.get_conversation (db : DB) (u1 u2 : Nat)
    (order_id : Option Nat) (skip limit : Nat) : List Message × Nat :=
  let filtered := conversationMessages db u1 u2 order_id
  let total := filtered.length
  let page := ((sortByCreatedDesc filtered).drop skip).take limit
  (page.reverse, total)

/-- Selection predicate of `ChatService.mark_as_read`:
`Message.id.in_(message_ids)` and `Message.receiver_id == user_id`. The
source does not filter on the current `is_read` value. -/
def markPred (message_ids : List Nat) (user_id : Nat) (m : Message) :
    Bool :=
  message_ids.contains m.id && m.receiver_id == user_id

/-- Per-row effect of `ChatService.mark_as_read`: selected rows get
`is_read = True`, others are untouched. -/
def markApply (message_ids : List Nat) (user_id : Nat) (m : Message) :
    Message :=
  if markPred message_ids user_id m then { m with is_read := true } else m

/-- Embedding of `ChatService.mark_as_read`: select the messages whose id
is in the given set and whose receiver is the given user, set
`is_read = True` on each, and return how many were selected. -/
def ChatService.mark_as_read (db : DB) (message_ids : List Nat)
    (user_id : Nat) : DB × Nat :=
  ({ db with messages := db.messages.map (markApply message_ids user_id) },
    (db.messages.filter (markPred message_ids user_id)).length)

/-- Access condition of `ChatService.get_order_chat` as written in the
source: owner, or ADMIN, or SUPPORT, or a SELLER owning an item of the
order (the source also requires `order.items` to be non-empty before the
`any` call, a Python truthiness guard). -/
def orderChatHasAccess (order : Order) (user_id : Nat) (role : UserRole) :
    Bool :=
  order.user_id == user_id || role == UserRole.admin ||
    role == UserRole.support ||
    (role == UserRole.seller && !order.items.isEmpty &&
      order.items.any (fun oi => oi.item_owner_id == user_id))

/-- Messages attached to an order, oldest first, as queried by
`ChatService.get_order_chat`. -/
def orderMessages (db : DB) (order_id : Nat) : List Message :=
  sortByCreatedAsc (db.messages.filter (fun m => m.order_id == some order_id))

/-- Embedding of `ChatService.get_order_chat`: 404 when the order is
absent, 403 when the access condition fails, otherwise the order's
messages oldest-first. -/
def ChatService.get_order_chat (db : DB) (order_id user_id : Nat)
    (role : UserRole) : Except ChatError (List Message) :=
  match findOrder db order_id with
  | none => .error (.notFound "Order" order_id)
  | some order =>
    if orderChatHasAccess order user_id role then
      .ok (orderMessages db order_id)
    else
      .error .authorization

/-- Spec-side access predicate, written from the specification words:
"true iff user_id is the order's owning buyer, OR user_role is ADMIN, OR
user_role is SUPPORT, OR (user_role is SELLER and user_id owns at least
one item contained in the order)". Used to compare the source's boolean
against the specified policy. -/
def specCanViewOrderThread (order : Order) (user_id : Nat)
    (role : UserRole) : Prop :=
  order.user_id = user_id ∨ role = UserRole.admin ∨
    role = UserRole.support ∨
    (role = UserRole.seller ∧ ∃ oi ∈ order.items, oi.item_owner_id = user_id)

/-- Row predicate of the UPDATE in `ChatService.resolve_conversation`:
between the pair and `is_resolved == False`. -/
def resolvePred (u1 u2 : Nat) (m : Message) : Bool :=
  betweenPair m u1 u2 && !m.is_resolved

/-- Per-row effect of `ChatService.resolve_conversation`: matched rows
get `is_resolved = True`, others are untouched. -/
def resolveApply (u1 u2 : Nat) (m : Message) : Message :=
  if resolvePred u1 u2 m then { m with is_resolved := true } else m

/-- Embedding of `ChatService.resolve_conversation`: flag every message
between the pair that is not yet resolved, return the number of rows the
UPDATE matched. -/
def ChatService.resolve_conversation (db : DB) (u1 u2 : Nat) : DB × Nat :=
  ({ db with messages := db.messages.map (resolveApply u1 u2) },
    (db.messages.filter (resolvePred u1 u2)).length)

/-- Non-resolved messages sent by `u` to the support identity, as in the
first grouped query of `ChatService.get_support_conversations`. -/
def sentToSupport (db : DB) (sid u : Nat) : List Message :=
  db.messages.filter (fun m =>
    m.sender_id == u && m.receiver_id == sid && !m.is_resolved)

/-- Non-resolved messages sent by the support identity to `u`, as in the
second grouped query of `ChatService.get_support_conversations`. -/
def receivedFromSupport (db : DB) (sid u : Nat) : List Message :=
  db.messages.filter (fun m =>
    m.sender_id == sid && m.receiver_id == u && !m.is_resolved)

/-- The `max(created_at)` aggregate of a message group. -/
def maxCreatedAt (msgs : List Message) : Option Nat :=
  (msgs.map (fun m => m.created_at)).max?

/-- Merge of the two per-user aggregates, mirroring the Python
`if sent_time and received_time: max(...) elif sent_time: ... else: ...`
(`created_at` values are datetimes, hence always truthy). -/
def mergeTimes : Option Nat → Option Nat → Option Nat
  | some a, some b => some (max a b)
  | some a, none => some a
  | none, r => r

/-- Distinct user ids having at least one non-resolved message with the
support identity: the union of the two grouped-query key sets of
`ChatService.get_support_conversations`. -/
def supportCandidates (db : DB) (sid : Nat) : List Nat :=
  ((db.messages.filter (fun m =>
      m.receiver_id == sid && !m.is_resolved)).map (fun m => m.sender_id) ++
    (db.messages.filter (fun m =>
      m.sender_id == sid && !m.is_resolved)).map (fun m => m.receiver_id)).dedup

/-- Latest non-resolved message between a user and the support identity
(`ORDER BY created_at DESC LIMIT 1` over the non-resolved pair filter). -/
def lastUnresolvedBetween (db : DB) (sid u : Nat) : Option Message :=
  (sortByCreatedDesc (db.messages.filter (fun m =>
    betweenPair m u sid && !m.is_resolved))).head?

/-- Unread counter of the support queue exactly as the source computes it:
messages from the user to the support identity with `is_read == False`.
The source's WHERE clause has no `is_resolved` condition. -/
def supportUnreadCount (db : DB) (sid u : Nat) : Nat :=
  (db.messages.filter (fun m =>
    m.sender_id == u && m.receiver_id == sid && !m.is_read)).length

/-- One entry of the support queue: the user, the latest non-resolved
message of the conversation, and the unread counter. -/
structure SupportConvEntry where
  user_id : Nat
  last_message : Option Message
  unread_count : Nat
deriving DecidableEq, Repr

/-- Embedding of `ChatService.get_support_conversations`: collect the
users having a non-resolved message with the support identity, sort them
by last-activity time descending, paginate, and build each entry from the
latest non-resolved message and the unread counter. -/
def ChatService.get_support_conversations (db : DB) (sid : Nat)
    (skip limit : Nat) : List SupportConvEntry × Nat :=
  let candidates := supportCandidates db sid
  let times := candidates.map (fun u =>
    (u, (mergeTimes (maxCreatedAt (sentToSupport db sid u))
          (maxCreatedAt (receivedFromSupport db sid u))).getD 0))
  let sorted := List.insertionSort (fun a b => b.2 ≤ a.2) times
  let total := sorted.length
  let page := (sorted.drop skip).take limit
  (page.map (fun p =>
    { user_id := p.1,
      last_message := lastUnresolvedBetween db sid p.1,
      unread_count := supportUnreadCount db sid p.1 }), total)

/-- Replies the WebSocket endpoint can write back to the client inside
its receive loop. -/
inductive WsReply where
  | pong
  | errorUseHttpPost
deriving DecidableEq, Repr

/-- Frame dispatch of the `/chat/ws/{user_id}` receive loop
(`app/api/chat.py`, `websocket_endpoint`): the parsed frame's `type`
field is matched against "ping" (answered with a pong) and "message"
(answered with an error directing the client to the HTTP POST endpoint);
any other value falls through both branches and produces no reply. The
returned list holds the socket writes the iteration performs. -/
def handleClientFrame (message_type : Option String) : List WsReply :=
  match message_type with
  | some t =>
    if t == "ping" then [WsReply.pong]
    else if t == "message" then [WsReply.errorUseHttpPost]
    else []
  | none => []

/-- Lookup in a Python dict embedded as an insertion-ordered association
list. -/
def alistLookup {α : Type} (l : List (Nat × α)) (k : Nat) : Option α :=
  match l.find? (fun p => p.1 == k) with
  | some p => some p.2
  | none => none

/-- Dict assignment `d[k] = v`: overwrite in place when the key exists,
otherwise append, preserving insertion order like a Python dict. -/
def alistSet {α : Type} (l : List (Nat × α)) (k : Nat) (v : α) :
    List (Nat × α) :=
  if (l.find? (fun p => p.1 == k)).isSome then
    l.map (fun p => if p.1 == k then (k, v) else p)
  else l ++ [(k, v)]

/-- Dict deletion `del d[k]`. -/
def alistRemove {α : Type} (l : List (Nat × α)) (k : Nat) :
    List (Nat × α) :=
  l.filter (fun p => p.1 != k)

/-- State of `ConnectionManager`: `active_connections` maps a user id to
the set of that user's live websockets, `connection_users` maps a
websocket back to its user id. Websockets are embedded as numeric
handles; sets keep insertion order as duplicate-free lists. -/
structure ConnMgr where
  active_connections : List (Nat × List Nat)
  connection_users : List (Nat × Nat)
deriving DecidableEq, Repr

/-- Freshly constructed `ConnectionManager`. -/
def ConnMgr.init : ConnMgr :=
  { active_connections := [], connection_users := [] }

/-- Python `set.add`: append the websocket to the connection set unless
already present. -/
def connSetAdd (conns : List Nat) (ws : Nat) : List Nat :=
  if conns.contains ws then conns else conns ++ [ws]

/-- Embedding of `ConnectionManager.connect`: create the user's set when
absent, add the websocket to it, and record the reverse mapping. -/
def ConnMgr.connect (mgr : ConnMgr) (ws uid : Nat) : ConnMgr :=
  { active_connections := alistSet mgr.active_connections uid
      (connSetAdd ((alistLookup mgr.active_connections uid).getD []) ws),
    connection_users := alistSet mgr.connection_users ws uid }

/-- Interior of `ConnectionManager.disconnect` acting on the
user-to-connections map: discard the websocket from the user's set
(`set.discard`), and drop the user's entry when the set became empty. -/
def connSetRemove (active : List (Nat × List Nat)) (uid ws : Nat) :
    List (Nat × List Nat) :=
  match alistLookup active uid with
  | none => active
  | some conns =>
    if (conns.erase ws).isEmpty then alistRemove active uid
    else alistSet active uid (conns.erase ws)

/-- Embedding of `ConnectionManager.disconnect`: look the websocket up in
the reverse map; Python's `if user_id:` makes this a no-op when the
lookup misses (or yields the falsy id 0); otherwise discard the websocket
from the user's set, drop the user's entry when the set became empty, and
delete the reverse mapping. -/
def ConnMgr.disconnect (mgr : ConnMgr) (ws : Nat) : ConnMgr :=
  match alistLookup mgr.connection_users ws with
  | none => mgr
  | some uid =>
    if uid ≠ 0 then
      { active_connections := connSetRemove mgr.active_connections uid ws,
        connection_users := alistRemove mgr.connection_users ws }
    else mgr

/-- Embedding of `ConnectionManager.send_personal_message`. The network
outcome of each `send_json` is abstracted by the oracle `sendOk`; the
loop delivers to every connection whose send succeeds, collects the
failing ones, and then disconnects each failing connection. Returns the
updated registry and the list of connections the event reached. When the
user has no entry the registry is returned unchanged with no deliveries
and no error. -/
def ConnMgr.send_personal_message (mgr : ConnMgr) (sendOk : Nat → Bool)
    (uid : Nat) : ConnMgr × List Nat :=
  match alistLookup mgr.active_connections uid with
  | none => (mgr, [])
  | some conns =>
    let delivered := conns.filter sendOk
    let disconnected := conns.filter (fun c => !sendOk c)
    (disconnected.foldl (fun m c => ConnMgr.disconnect m c) mgr, delivered)

/-- Embedding of `ConnectionManager.is_connected`. -/
def ConnMgr.is_connected (mgr : ConnMgr) (uid : Nat) : Bool :=
  match alistLookup mgr.active_connections uid with
  | some conns => decide (conns.length > 0)
  | none => false

/-- Embedding of `ConnectionManager.get_connected_users`:
`list(self.active_connections.keys())`. -/
def ConnMgr.get_connected_users (mgr : ConnMgr) : List Nat :=
  mgr.active_connections.map (fun p => p.1)

/-- Operations of the registry the invariant claim quantifies over. -/
inductive CMOp where
  | connect (ws uid : Nat)
  | disconnect (ws : Nat)
deriving DecidableEq, Repr

/-- Apply one registry operation. -/
def CMOp.apply (mgr : ConnMgr) : CMOp → ConnMgr
  | CMOp.connect ws uid => mgr.connect ws uid
  | CMOp.disconnect ws => mgr.disconnect ws

/-- Run a sequence of registry operations from the given state. -/
def ConnMgr.run (mgr : ConnMgr) (ops : List CMOp) : ConnMgr :=
  ops.foldl CMOp.apply mgr

/-- Consistency invariant of the registry: association-list keys are
duplicate-free; every user entry holds a non-empty duplicate-free
connection set; every websocket of a user's set is mapped back to that
user; and every reverse-map entry points into the corresponding user's
set. -/
def ConnMgrInv (mgr : ConnMgr) : Prop :=
  (mgr.active_connections.map (fun p => p.1)).Nodup ∧
  (mgr.connection_users.map (fun p => p.1)).Nodup ∧
  (∀ p ∈ mgr.active_connections, p.2 ≠ [] ∧ p.2.Nodup) ∧
  (∀ p ∈ mgr.active_connections, ∀ ws ∈ p.2,
    alistLookup mgr.connection_users ws = some p.1) ∧
  (∀ q ∈ mgr.connection_users,
    q.1 ∈ (alistLookup mgr.active_connections q.2).getD [])

/-- Positivity of all registered user ids (the claim restricts itself to
positive user ids; id 0 is falsy in Python and behaves differently in
`disconnect`). -/
def ConnMgrPos (mgr : ConnMgr) : Prop :=
  ∀ q ∈ mgr.connection_users, q.2 ≠ 0

/-- Well-formed operation sequence from a given state: every connect uses
a positive user id and a websocket that is not registered at that point
(each real websocket object is connected at most once by the endpoint). -/
def freshRun : ConnMgr → List CMOp → Bool
  | _, [] => true
  | mgr, op :: rest =>
    (match op with
     | CMOp.connect ws uid =>
       (alistLookup mgr.connection_users ws).isNone && uid != 0
     | CMOp.disconnect _ => true) && freshRun (CMOp.apply mgr op) rest

instance (mgr : ConnMgr) : Decidable (ConnMgrInv mgr) := by
  unfold ConnMgrInv
  infer_instance

instance (mgr : ConnMgr) : Decidable (ConnMgrPos mgr) := by
  unfold ConnMgrPos
  infer_instance

/-- Fixture: an active admin account. -/
def exAdmin : User :=
  { id := 1, username := "admin", role := UserRole.admin, is_active := true }
/-- Fixture: an active plain customer account. -/
def exCustomer : User :=
  { id := 2, username := "alice", role := UserRole.user, is_active := true }
/-- Fixture: an active support account. -/
def exSupport : User :=
  { id := 3, username := "supp", role := UserRole.support, is_active := true }
/-- Fixture database holding an admin, a customer and a support user. -/
def dbWithSupport : DB :=
  { users := [exAdmin, exCustomer, exSupport], orders := [], messages := [] }
/-- Fixture database holding an admin and a customer but no support
user. -/
def dbNoSupport : DB :=
  { users := [exAdmin, exCustomer], orders := [], messages := [] }
/-- Fixture: the message produced by the C1 witness send. -/
def c1Msg : Message :=
  { id := 10, sender_id := 3, receiver_id := 2, order_id := none,
    item_id := none, text := "hi", is_read := false, is_resolved := false,
    created_at := 5 }
/-- Fixture: the database state after the C1 witness send. -/
def c1DBAfter : DB :=
  { users := [exAdmin, exCustomer, exSupport], orders := [],
    messages := [c1Msg] }
/-- Fixture: the message produced by the admin send with no support user
available. -/
def c8Msg : Message :=
  { id := 10, sender_id := 1, receiver_id := 2, order_id := none,
    item_id := none, text := "hi", is_read := false, is_resolved := false,
    created_at := 5 }
/-- Fixture: an order owned by buyer 2 whose single item belongs to
seller 4. -/
def c2Order : Order :=
  { id := 7, user_id := 2, items := [{ item_owner_id := 4 }] }
/-- Fixture: a message attached to order 7. -/
def c2Msg : Message :=
  { id := 1, sender_id := 2, receiver_id := 4, order_id := some 7,
    item_id := none, text := "q", is_read := false, is_resolved := false,
    created_at := 1 }
/-- Fixture database for the order-thread access witness. -/
def c2DB : DB :=
  { users := [], orders := [c2Order], messages := [c2Msg] }
instance (order : Order) (uid : Nat) (role : UserRole) :
    Decidable (specCanViewOrderThread order uid role) := by
  unfold specCanViewOrderThread
  infer_instance

/-- Fixture: the support-side user of the support-queue claims. -/
def c5Supp : User :=
  { id := 1, username := "supp", role := UserRole.support,
    is_active := true }

/-- Fixture: the customer of the support-queue claims. -/
def c5Alice : User :=
  { id := 2, username := "alice", role := UserRole.user,
    is_active := true }

/-- Fixture: an already-resolved but unread message to support. -/
def c5Msg1 : Message :=
  { id := 1, sender_id := 2, receiver_id := 1, order_id := none,
    item_id := none, text := "old", is_read := false, is_resolved := true,
    created_at := 10 }

/-- Fixture: a non-resolved unread message to support. -/
def c5Msg2 : Message :=
  { id := 2, sender_id := 2, receiver_id := 1, order_id := none,
    item_id := none, text := "new", is_read := false, is_resolved := false,
    created_at := 20 }

/-- Fixture database for the support-queue claims. -/
def c5DB : DB :=
  { users := [c5Supp, c5Alice], orders := [], messages := [c5Msg1, c5Msg2] }

/-- Fixture: a message addressed to user 2, initially unread. -/
def c3Msg : Message :=
  { id := 1, sender_id := 9, receiver_id := 2, order_id := none,
    item_id := none, text := "x", is_read := false, is_resolved := false,
    created_at := 1 }

/-- Fixture database for the mark-as-read claims. -/
def c3DB : DB := { users := [], orders := [], messages := [c3Msg] }

/-- Fixture: a message between users 2 and 3. -/
def c7Msg1 : Message :=
  { id := 1, sender_id := 2, receiver_id := 3, order_id := none,
    item_id := none, text := "a", is_read := false, is_resolved := false,
    created_at := 1 }

/-- Fixture: a message between users 5 and 6. -/
def c7Msg2 : Message :=
  { id := 2, sender_id := 5, receiver_id := 6, order_id := none,
    item_id := none, text := "b", is_read := false, is_resolved := false,
    created_at := 2 }

/-- Fixture database for the resolve-conversation claim. -/
def c7DB : DB := { users := [], orders := [], messages := [c7Msg1, c7Msg2] }

/-- Whenever `ChatService.send_message` succeeds, the returned message
carries exactly the given sender and receiver ids and is appended to the
message table. -/
theorem send_message_ok {db : DB} {sid rid : Nat} {text : String}
    {oid iid : Option Nat} {nid now : Nat} {db2 : DB} {m : Message}
    (hok : ChatService.send_message db sid rid text oid iid nid now =
      Except.ok (db2, m)) :
    m.sender_id = sid ∧ m.receiver_id = rid ∧
      db2.messages = db.messages ++ [m] := by
  unfold ChatService.send_message at hok
  cases h1 : findUser db rid with
  | none => rw [h1] at hok; exact absurd hok (by simp)
  | some u =>
    rw [h1] at hok
    by_cases h2 : (optTruthy oid && (findOrder db (oid.getD 0)).isNone) = true
    · rw [if_pos h2] at hok; exact absurd hok (by simp)
    · rw [if_neg h2] at hok
      simp only [Except.ok.injEq, Prod.mk.injEq] at hok
      obtain ⟨hdb, hm⟩ := hok
      subst hdb
      subst hm
      simp

/-- Python truthiness guard `order.items and any(...)` collapses to the
`any` alone, since `any` over an empty list is already false. -/
theorem nonempty_any_eq (a : Bool) (l : List OrderItemRow)
    (p : OrderItemRow → Bool) :
    ((a && !l.isEmpty) && l.any p) = (a && l.any p) := by
  cases l <;> simp

/-- The boolean access condition written in `get_order_chat` coincides
with the access policy stated by the specification. -/
theorem orderChatHasAccess_iff (order : Order) (uid : Nat)
    (role : UserRole) :
    orderChatHasAccess order uid role = true ↔
      specCanViewOrderThread order uid role := by
  unfold orderChatHasAccess specCanViewOrderThread
  rw [Bool.and_assoc, ← Bool.and_assoc (role == UserRole.seller),
    nonempty_any_eq]
  simp only [Bool.or_eq_true, Bool.and_eq_true, beq_iff_eq,
    List.any_eq_true]
  tauto

/-- Filtering after a map commutes with filtering first when the mapped
function leaves the filter predicate unchanged. -/
theorem filter_map_invariant {α : Type} (p : α → Bool) (f : α → α)
    (hf : ∀ a, p (f a) = p a) (l : List α) :
    (l.map f).filter p = (l.filter p).map f := by
  induction l with
  | nil => rfl
  | cons a t ih =>
    by_cases h : p a = true
    · simp only [List.map_cons, List.filter_cons, hf, h, if_true, ih]
    · have h2 : p a = false := by simpa using h
      simp only [List.map_cons, List.filter_cons, hf, h2, Bool.false_eq_true,
        if_false, ih]

/-- Mapping an idempotent function twice equals mapping it once. -/
theorem map_idem {α : Type} (f : α → α) (hf : ∀ a, f (f a) = f a)
    (l : List α) : (l.map f).map f = l.map f := by
  induction l with
  | nil => rfl
  | cons a t ih => simp only [List.map_cons, hf, ih]

/-- Membership in the support-queue candidate set is exactly having a
non-resolved message with the support identity. -/
theorem supportCandidates_mem (db : DB) (sid u : Nat) :
    u ∈ supportCandidates db sid ↔
      ∃ m ∈ db.messages, m.is_resolved = false ∧
        ((m.sender_id = u ∧ m.receiver_id = sid) ∨
          (m.sender_id = sid ∧ m.receiver_id = u)) := by
  unfold supportCandidates
  rw [List.mem_dedup, List.mem_append]
  simp only [List.mem_map, List.mem_filter, Bool.and_eq_true, beq_iff_eq,
    Bool.not_eq_true']
  constructor
  · rintro (⟨m, ⟨hm, hr, hres⟩, hs⟩ | ⟨m, ⟨hm, hs, hres⟩, hr⟩)
    · exact ⟨m, hm, hres, Or.inl ⟨hs, hr⟩⟩
    · exact ⟨m, hm, hres, Or.inr ⟨hs, hr⟩⟩
  · rintro ⟨m, hm, hres, ⟨hs, hr⟩ | ⟨hs, hr⟩⟩
    · exact Or.inl ⟨m, ⟨hm, hr, hres⟩, hs⟩
    · exact Or.inr ⟨m, ⟨hm, hs, hres⟩, hr⟩

/-- The latest-non-resolved-message query returns a non-resolved message
of the pair holding the maximal timestamp among them. -/
theorem lastUnresolvedBetween_spec (db : DB) (sid u : Nat) (m : Message)
    (h : lastUnresolvedBetween db sid u = some m) :
    m ∈ db.messages ∧ betweenPair m u sid = true ∧ m.is_resolved = false ∧
    (∀ m2 ∈ db.messages, betweenPair m2 u sid = true →
      m2.is_resolved = false → m2.created_at ≤ m.created_at) := by
  unfold lastUnresolvedBetween at h
  set l := db.messages.filter (fun m => betweenPair m u sid && !m.is_resolved) with hl
  have hperm : (sortByCreatedDesc l).Perm l := List.perm_insertionSort _ _
  have hsorted : List.Sorted createdDescRel (sortByCreatedDesc l) :=
    List.sorted_insertionSort _ _
  cases hs : sortByCreatedDesc l with
  | nil => rw [hs] at h; exact absurd h (by simp)
  | cons a t =>
    rw [hs] at h
    simp only [List.head?_cons, Option.some.injEq] at h
    rw [h] at hs
    have hmem : m ∈ l := (hperm.mem_iff).mp (by rw [hs]; exact List.mem_cons_self _ _)
    have hmf := List.mem_filter.mp (hl ▸ hmem)
    obtain ⟨hmdb, hcond⟩ := hmf
    rw [Bool.and_eq_true, Bool.not_eq_true'] at hcond
    refine ⟨hmdb, hcond.1, hcond.2, ?_⟩
    intro m2 hm2 hbp hres
    have hm2l : m2 ∈ l := by
      rw [hl]
      exact List.mem_filter.mpr ⟨hm2, by rw [hbp, hres]; rfl⟩
    have hm2s : m2 ∈ sortByCreatedDesc l := (hperm.mem_iff).mpr hm2l
    rw [hs] at hm2s
    rcases List.mem_cons.mp hm2s with heq | hmt
    · rw [heq]
    · have := (List.sorted_cons.mp (hs ▸ hsorted)).1 m2 hmt
      exact this

/-- A lookup misses exactly when no entry carries the key. -/
theorem alistLookup_eq_none {α : Type} (l : List (Nat × α)) (k : Nat) :
    alistLookup l k = none ↔ ∀ p ∈ l, p.1 ≠ k := by
  unfold alistLookup
  cases hf : l.find? (fun p => p.1 == k) with
  | none =>
    simp only [true_iff]
    intro p hp hk
    have := List.find?_eq_none.mp hf p hp
    simp [hk] at this
  | some p =>
    simp only [reduceCtorEq, false_iff, not_forall]
    refine ⟨p, List.mem_of_find?_eq_some hf, ?_⟩
    have := List.find?_some hf
    simpa using this

/-- A successful lookup yields an entry of the list. -/
theorem alistLookup_mem {α : Type} {l : List (Nat × α)} {k : Nat} {v : α}
    (h : alistLookup l k = some v) : (k, v) ∈ l := by
  unfold alistLookup at h
  cases hf : l.find? (fun p => p.1 == k) with
  | none => rw [hf] at h; cases h
  | some p =>
    rw [hf] at h
    simp only [Option.some.injEq] at h
    have hmem := List.mem_of_find?_eq_some hf
    have hk := List.find?_some hf
    simp only [beq_iff_eq] at hk
    have hpe : p = (k, v) := by
      cases p
      simp only at hk h
      simp [hk, h]
    rw [← hpe]
    exact hmem

/-- Overwriting an entry does not change which keys match a lookup predicate. -/
theorem setEntry_comp {α : Type} (k k2 : Nat) (v : α) :
    ((fun p : Nat × α => p.1 == k2) ∘
      (fun p : Nat × α => if (p.1 == k) = true then (k, v) else p)) =
    (fun p : Nat × α => p.1 == k2) := by
  funext p
  by_cases h : p.1 = k
  · simp [Function.comp, h]
  · simp [Function.comp, h]

/-- Lookup after assignment at the assigned key. -/
theorem alistLookup_set_self {α : Type} (l : List (Nat × α)) (k : Nat)
    (v : α) : alistLookup (alistSet l k v) k = some v := by
  unfold alistSet
  by_cases h : (l.find? (fun p => p.1 == k)).isSome = true
  · rw [if_pos h]
    unfold alistLookup
    rw [List.find?_map, setEntry_comp]
    obtain ⟨p, hp⟩ := Option.isSome_iff_exists.mp h
    rw [hp]
    have hk := List.find?_some hp
    simp only [beq_iff_eq] at hk
    simp [Option.map_some', hk]
  · rw [if_neg h]
    unfold alistLookup
    rw [List.find?_append, Option.not_isSome_iff_eq_none.mp h]
    simp [List.find?_cons]

/-- Assignment leaves lookups at other keys unchanged. -/
theorem alistLookup_set_ne {α : Type} (l : List (Nat × α)) (k k2 : Nat)
    (v : α) (h : k2 ≠ k) :
    alistLookup (alistSet l k v) k2 = alistLookup l k2 := by
  unfold alistSet
  by_cases hs : (l.find? (fun p => p.1 == k)).isSome = true
  · rw [if_pos hs]
    unfold alistLookup
    rw [List.find?_map, setEntry_comp]
    cases hf : l.find? (fun p => p.1 == k2) with
    | none => rfl
    | some p =>
      have hk2 := List.find?_some hf
      simp only [beq_iff_eq] at hk2
      simp [Option.map_some', hk2, h]
  · rw [if_neg hs]
    unfold alistLookup
    rw [List.find?_append]
    have hone : List.find? (fun p => p.1 == k2) [(k, v)] = none := by
      rw [List.find?_cons_of_neg _ (by simp [Ne.symm h])]
      rfl
    rw [hone]
    cases l.find? (fun p => p.1 == k2) <;> rfl

/-- Lookup after deletion at the deleted key. -/
theorem alistLookup_remove_self {α : Type} (l : List (Nat × α)) (k : Nat) :
    alistLookup (alistRemove l k) k = none := by
  unfold alistRemove alistLookup
  rw [List.find?_filter]
  have hf : List.find? (fun a : Nat × α =>
      decide ((a.1 != k) = true ∧ (a.1 == k) = true)) l = none := by
    rw [List.find?_eq_none]
    intro p hp
    simp only [decide_eq_true_eq, bne_iff_ne, beq_iff_eq, not_and]
    exact fun hne he => absurd he hne
  rw [hf]

/-- Deletion leaves lookups at other keys unchanged. -/
theorem alistLookup_remove_ne {α : Type} (l : List (Nat × α)) (k k2 : Nat)
    (h : k2 ≠ k) :
    alistLookup (alistRemove l k) k2 = alistLookup l k2 := by
  unfold alistRemove alistLookup
  rw [List.find?_filter]
  have hfe : (fun p : Nat × α =>
      decide ((p.1 != k) = true ∧ (p.1 == k2) = true)) =
      (fun p : Nat × α => p.1 == k2) := by
    funext p
    by_cases hp : p.1 = k2
    · simp [hp, h]
    · simp [hp]
  rw [hfe]

/-- Entries after an assignment: the new pair, or an old pair with a different key. -/
theorem mem_alistSet {α : Type} {p : Nat × α} {l : List (Nat × α)}
    {k : Nat} {v : α} (h : p ∈ alistSet l k v) :
    p = (k, v) ∨ (p ∈ l ∧ p.1 ≠ k) := by
  unfold alistSet at h
  by_cases hs : (l.find? (fun q => q.1 == k)).isSome = true
  · rw [if_pos hs] at h
    obtain ⟨q, hq, hqe⟩ := List.mem_map.mp h
    by_cases hk : q.1 = k
    · left
      rw [← hqe]
      simp [hk]
    · right
      rw [← hqe]
      simp only [hk, beq_iff_eq, if_false]
      constructor
      · simpa [hk] using hq
      · simpa using hk
  · rw [if_neg hs] at h
    rcases List.mem_append.mp h with hl | hr
    · right
      refine ⟨hl, ?_⟩
      intro hk
      rw [Option.not_isSome_iff_eq_none] at hs
      exact absurd ((alistLookup_eq_none l k).mp
        (by unfold alistLookup; rw [hs]) p hl) (by simp [hk])
    · left
      simpa using hr

/-- Entries after a deletion. -/
theorem mem_alistRemove {α : Type} {p : Nat × α} {l : List (Nat × α)}
    {k : Nat} : p ∈ alistRemove l k ↔ p ∈ l ∧ p.1 ≠ k := by
  unfold alistRemove
  rw [List.mem_filter]
  simp

/-- Assignment preserves duplicate-freeness of the key list. -/
theorem alistSet_keys_nodup {α : Type} {l : List (Nat × α)} {k : Nat}
    {v : α} (h : (l.map Prod.fst).Nodup) :
    ((alistSet l k v).map Prod.fst).Nodup := by
  unfold alistSet
  by_cases hs : (l.find? (fun p => p.1 == k)).isSome = true
  · rw [if_pos hs]
    have hkeys : (l.map (fun p => if (p.1 == k) = true then (k, v)
        else p)).map Prod.fst = l.map Prod.fst := by
      rw [List.map_map]
      apply List.map_congr_left
      intro p hp
      by_cases hk : p.1 = k
      · simp [Function.comp, hk]
      · simp [Function.comp, hk]
    rw [hkeys]
    exact h
  · rw [if_neg hs]
    rw [List.map_append]
    rw [List.nodup_append]
    refine ⟨h, List.nodup_singleton k, ?_⟩
    intro a ha hb
    simp only [List.map_cons, List.map_nil, List.mem_singleton] at hb
    subst hb
    obtain ⟨p, hp, hpk⟩ := List.mem_map.mp ha
    rw [Option.not_isSome_iff_eq_none] at hs
    exact (alistLookup_eq_none l a).mp
      (by unfold alistLookup; rw [hs]) p hp hpk

/-- Deletion preserves duplicate-freeness of the key list. -/
theorem alistRemove_keys_nodup {α : Type} {l : List (Nat × α)} {k : Nat}
    (h : (l.map Prod.fst).Nodup) :
    ((alistRemove l k).map Prod.fst).Nodup := by
  unfold alistRemove
  exact List.Nodup.sublist
    (List.Sublist.map Prod.fst (List.filter_sublist l)) h

/-- A list whose erase result is empty consisted only of the erased element. -/
theorem eq_of_erase_eq_nil {l : List Nat} {a : Nat} (h : l.erase a = []) :
    ∀ x ∈ l, x = a := by
  cases l with
  | nil => intro x hx; cases hx
  | cons b t =>
    rw [List.erase_cons] at h
    by_cases hb : b = a
    · intro x hx
      rw [if_pos (by simp [hb])] at h
      subst h
      rcases List.mem_singleton.mp hx with rfl
      exact hb
    · rw [if_neg (by simp [hb])] at h
      cases h

/-- Unfolding of disconnect when the websocket is unregistered: a no-op. -/
theorem disconnect_eq_of_none {mgr : ConnMgr} {ws : Nat}
    (hu : alistLookup mgr.connection_users ws = none) :
    mgr.disconnect ws = mgr := by
  unfold ConnMgr.disconnect
  rw [hu]

/-- Unfolding of disconnect for a registered websocket with a truthy user id. -/
theorem disconnect_eq_of_some {mgr : ConnMgr} {ws uid : Nat}
    (hu : alistLookup mgr.connection_users ws = some uid) (hz : uid ≠ 0) :
    mgr.disconnect ws =
      { active_connections := connSetRemove mgr.active_connections uid ws,
        connection_users := alistRemove mgr.connection_users ws } := by
  unfold ConnMgr.disconnect
  rw [hu]
  simp [hz]

/-- Unfolding of disconnect for the Python-falsy user id 0: a no-op. -/
theorem disconnect_eq_of_zero {mgr : ConnMgr} {ws : Nat}
    (hu : alistLookup mgr.connection_users ws = some 0) :
    mgr.disconnect ws = mgr := by
  unfold ConnMgr.disconnect
  rw [hu]
  simp

/-- Unfolding of the active-map update when the user has no entry. -/
theorem connSetRemove_eq_of_none {active : List (Nat × List Nat)}
    {uid : Nat} (ws : Nat) (ha : alistLookup active uid = none) :
    connSetRemove active uid ws = active := by
  unfold connSetRemove
  rw [ha]

/-- Unfolding of the active-map update when the user has an entry. -/
theorem connSetRemove_eq_of_some {active : List (Nat × List Nat)}
    {uid : Nat} (ws : Nat) {conns : List Nat}
    (ha : alistLookup active uid = some conns) :
    connSetRemove active uid ws =
      if (conns.erase ws).isEmpty then alistRemove active uid
      else alistSet active uid (conns.erase ws) := by
  unfold connSetRemove
  rw [ha]

/-- A connect with a not-yet-registered websocket preserves the registry invariant. -/
theorem connect_fresh_inv {mgr : ConnMgr} {ws uid : Nat}
    (hinv : ConnMgrInv mgr)
    (hfresh : alistLookup mgr.connection_users ws = none) :
    ConnMgrInv (mgr.connect ws uid) := by
  obtain ⟨hk1, hk2, h3, h4, h5⟩ := hinv
  have hws : ws ∉ (alistLookup mgr.active_connections uid).getD [] := by
    cases hl : alistLookup mgr.active_connections uid with
    | none => simp
    | some c =>
      intro hmem
      have hc := alistLookup_mem hl
      have hx := h4 (uid, c) hc ws (by simpa using hmem)
      rw [hfresh] at hx
      cases hx
  have hnodup : ((alistLookup mgr.active_connections uid).getD []).Nodup := by
    cases hl : alistLookup mgr.active_connections uid with
    | none => simp
    | some c => simpa using (h3 (uid, c) (alistLookup_mem hl)).2
  have hadd : connSetAdd ((alistLookup mgr.active_connections uid).getD [])
      ws = (alistLookup mgr.active_connections uid).getD [] ++ [ws] := by
    unfold connSetAdd
    rw [if_neg (by simpa using hws)]
  unfold ConnMgr.connect
  rw [hadd]
  set conns := (alistLookup mgr.active_connections uid).getD [] with hconns
  refine ⟨alistSet_keys_nodup hk1, alistSet_keys_nodup hk2, ?_, ?_, ?_⟩
  · intro p hp
    rcases mem_alistSet hp with rfl | ⟨hpl, _⟩
    · refine ⟨by simp, ?_⟩
      rw [List.nodup_append]
      exact ⟨hnodup, List.nodup_singleton ws, by
        intro a ha hb
        rw [List.mem_singleton] at hb
        subst hb
        exact hws ha⟩
    · exact h3 p hpl
  · intro p hp ws2 hws2
    rcases mem_alistSet hp with rfl | ⟨hpl, hpk⟩
    · rcases List.mem_append.mp hws2 with hin | hin
      · have hne : ws2 ≠ ws := fun he => hws (he ▸ hin)
        rw [alistLookup_set_ne _ _ _ _ hne]
        cases hl : alistLookup mgr.active_connections uid with
        | none =>
          rw [hl] at hconns
          rw [hconns] at hin
          cases hin
        | some c =>
          have hc := alistLookup_mem hl
          have hx := h4 (uid, c) hc ws2 (by
            rw [hl] at hconns
            simpa [hconns] using hin)
          simpa using hx
      · rw [List.mem_singleton] at hin
        subst hin
        rw [alistLookup_set_self]
    · have hne : ws2 ≠ ws := by
        intro he
        subst he
        have hx := h4 p hpl ws2 hws2
        rw [hfresh] at hx
        cases hx
      rw [alistLookup_set_ne _ _ _ _ hne]
      exact h4 p hpl ws2 hws2
  · intro q hq
    rcases mem_alistSet hq with rfl | ⟨hql, hqk⟩
    · simp only
      rw [alistLookup_set_self]
      simp [List.mem_append]
    · have h5q := h5 q hql
      by_cases he : q.2 = uid
      · rw [he]
        rw [alistLookup_set_self]
        simp only [Option.getD_some]
        rw [he] at h5q
        exact List.mem_append.mpr (Or.inl (by simpa [hconns] using h5q))
      · rw [alistLookup_set_ne _ _ _ _ he]
        exact h5q

/-- The disconnect body preserves the registry invariant. -/
theorem connSetRemove_inv {mgr : ConnMgr} {ws uid : Nat}
    (hinv : ConnMgrInv mgr)
    (hu : alistLookup mgr.connection_users ws = some uid) :
    ConnMgrInv
      { active_connections := connSetRemove mgr.active_connections uid ws,
        connection_users := alistRemove mgr.connection_users ws } := by
  obtain ⟨hk1, hk2, h3, h4, h5⟩ := hinv
  cases ha : alistLookup mgr.active_connections uid with
  | none =>
    rw [connSetRemove_eq_of_none ws ha]
    refine ⟨hk1, alistRemove_keys_nodup hk2, h3, ?_, ?_⟩
    · intro p hp ws2 hws2
      have hne : ws2 ≠ ws := by
        intro he
        subst he
        have hx := h4 p hp ws2 hws2
        rw [hu] at hx
        simp only [Option.some.injEq] at hx
        exact (alistLookup_eq_none mgr.active_connections uid).mp
          (by rw [ha]) p hp (by rw [hx])
      rw [alistLookup_remove_ne _ _ _ hne]
      exact h4 p hp ws2 hws2
    · intro q hq
      obtain ⟨hql, hqk⟩ := mem_alistRemove.mp hq
      exact h5 q hql
  | some conns =>
    have hcm : (uid, conns) ∈ mgr.active_connections := alistLookup_mem ha
    have hcnd : conns.Nodup := (h3 (uid, conns) hcm).2
    rw [connSetRemove_eq_of_some ws ha]
    by_cases he : (conns.erase ws).isEmpty = true
    · rw [if_pos he]
      have hern : conns.erase ws = [] := by simpa using he
      refine ⟨alistRemove_keys_nodup hk1, alistRemove_keys_nodup hk2,
        ?_, ?_, ?_⟩
      · intro p hp
        exact h3 p (mem_alistRemove.mp hp).1
      · intro p hp ws2 hws2
        obtain ⟨hpl, hpk⟩ := mem_alistRemove.mp hp
        have hne : ws2 ≠ ws := by
          intro hee
          subst hee
          have hx := h4 p hpl ws2 hws2
          rw [hu] at hx
          simp only [Option.some.injEq] at hx
          exact hpk hx.symm
        rw [alistLookup_remove_ne _ _ _ hne]
        exact h4 p hpl ws2 hws2
      · intro q hq
        obtain ⟨hql, hqk⟩ := mem_alistRemove.mp hq
        have h5q := h5 q hql
        by_cases hqu : q.2 = uid
        · exfalso
          rw [hqu, ha] at h5q
          simp only [Option.getD_some] at h5q
          exact hqk (eq_of_erase_eq_nil hern q.1 h5q)
        · rw [alistLookup_remove_ne _ _ _ hqu]
          exact h5q
    · rw [if_neg he]
      have hene : conns.erase ws ≠ [] := by simpa using he
      refine ⟨alistSet_keys_nodup hk1, alistRemove_keys_nodup hk2,
        ?_, ?_, ?_⟩
      · intro p hp
        rcases mem_alistSet hp with rfl | ⟨hpl, _⟩
        · exact ⟨hene, hcnd.erase ws⟩
        · exact h3 p hpl
      · intro p hp ws2 hws2
        rcases mem_alistSet hp with rfl | ⟨hpl, hpk⟩
        · simp only at hws2
          obtain ⟨hne, hin⟩ := hcnd.mem_erase_iff.mp hws2
          rw [alistLookup_remove_ne _ _ _ hne]
          simpa using h4 (uid, conns) hcm ws2 hin
        · have hne : ws2 ≠ ws := by
            intro hee
            subst hee
            have hx := h4 p hpl ws2 hws2
            rw [hu] at hx
            simp only [Option.some.injEq] at hx
            exact hpk hx.symm
          rw [alistLookup_remove_ne _ _ _ hne]
          exact h4 p hpl ws2 hws2
      · intro q hq
        obtain ⟨hql, hqk⟩ := mem_alistRemove.mp hq
        have h5q := h5 q hql
        by_cases hqu : q.2 = uid
        · rw [hqu, alistLookup_set_self]
          simp only [Option.getD_some]
          rw [hqu, ha] at h5q
          simp only [Option.getD_some] at h5q
          exact hcnd.mem_erase_iff.mpr ⟨hqk, h5q⟩
        · rw [alistLookup_set_ne _ _ _ _ hqu]
          exact h5q

/-- Disconnect preserves the registry invariant unconditionally. -/
theorem disconnect_inv {mgr : ConnMgr} {ws : Nat}
    (hinv : ConnMgrInv mgr) : ConnMgrInv (mgr.disconnect ws) := by
  cases hu : alistLookup mgr.connection_users ws with
  | none => rw [disconnect_eq_of_none hu]; exact hinv
  | some uid =>
    by_cases hz : uid = 0
    · subst hz
      rw [disconnect_eq_of_zero hu]
      exact hinv
    · rw [disconnect_eq_of_some hu hz]
      exact connSetRemove_inv hinv hu

/-- Connect with a positive user id preserves id positivity. -/
theorem connect_pos {mgr : ConnMgr} {ws uid : Nat}
    (hpos : ConnMgrPos mgr) (hz : uid ≠ 0) :
    ConnMgrPos (mgr.connect ws uid) := by
  intro q hq
  rcases mem_alistSet hq with rfl | ⟨hql, _⟩
  · exact hz
  · exact hpos q hql

/-- Disconnect preserves id positivity. -/
theorem disconnect_pos {mgr : ConnMgr} {ws : Nat}
    (hpos : ConnMgrPos mgr) : ConnMgrPos (mgr.disconnect ws) := by
  cases hu : alistLookup mgr.connection_users ws with
  | none => rw [disconnect_eq_of_none hu]; exact hpos
  | some uid =>
    by_cases hz : uid = 0
    · subst hz
      rw [disconnect_eq_of_zero hu]
      exact hpos
    · rw [disconnect_eq_of_some hu hz]
      intro q hq
      exact hpos q (mem_alistRemove.mp hq).1

/-- Disconnect changes the reverse map only at its own websocket. -/
theorem disconnect_users_lookup_ne {mgr : ConnMgr} {ws c : Nat}
    (h : c ≠ ws) :
    alistLookup (mgr.disconnect ws).connection_users c =
      alistLookup mgr.connection_users c := by
  cases hu : alistLookup mgr.connection_users ws with
  | none => rw [disconnect_eq_of_none hu]
  | some uid =>
    by_cases hz : uid = 0
    · subst hz
      rw [disconnect_eq_of_zero hu]
    · rw [disconnect_eq_of_some hu hz]
      exact alistLookup_remove_ne _ _ _ h

/-- Disconnect never resurrects an unregistered websocket. -/
theorem disconnect_users_lookup_none {mgr : ConnMgr} {ws c : Nat}
    (h : alistLookup mgr.connection_users c = none) :
    alistLookup (mgr.disconnect ws).connection_users c = none := by
  by_cases he : c = ws
  · subst he
    rw [disconnect_eq_of_none h]
    exact h
  · rw [disconnect_users_lookup_ne he]
    exact h

/-- Disconnect deregisters its websocket when the owner id is truthy. -/
theorem disconnect_self_none {mgr : ConnMgr} {ws uid : Nat}
    (h : alistLookup mgr.connection_users ws = some uid) (hz : uid ≠ 0) :
    alistLookup (mgr.disconnect ws).connection_users ws = none := by
  rw [disconnect_eq_of_some h hz]
  exact alistLookup_remove_self _ _

/-- Folding disconnect over a list of websockets preserves invariant and positivity. -/
theorem foldl_disconnect_inv_pos (ds : List Nat) (mgr : ConnMgr)
    (hinv : ConnMgrInv mgr) (hpos : ConnMgrPos mgr) :
    ConnMgrInv (ds.foldl (fun m c => ConnMgr.disconnect m c) mgr) ∧
    ConnMgrPos (ds.foldl (fun m c => ConnMgr.disconnect m c) mgr) := by
  induction ds generalizing mgr with
  | nil => exact ⟨hinv, hpos⟩
  | cons d t ih =>
    exact ih (mgr.disconnect d) (disconnect_inv hinv) (disconnect_pos hpos)

/-- The disconnect fold keeps unregistered websockets unregistered. -/
theorem foldl_disconnect_lookup_none_mono (ds : List Nat) (mgr : ConnMgr)
    (c : Nat) (h : alistLookup mgr.connection_users c = none) :
    alistLookup (ds.foldl (fun m w =>
      ConnMgr.disconnect m w) mgr).connection_users c = none := by
  induction ds generalizing mgr with
  | nil => exact h
  | cons d t ih =>
    exact ih (mgr.disconnect d) (disconnect_users_lookup_none h)

/-- The disconnect fold leaves websockets outside the list untouched. -/
theorem foldl_disconnect_lookup_of_not_mem (ds : List Nat) (mgr : ConnMgr)
    (c : Nat) (hc : c ∉ ds) :
    alistLookup (ds.foldl (fun m w =>
        ConnMgr.disconnect m w) mgr).connection_users c =
      alistLookup mgr.connection_users c := by
  induction ds generalizing mgr with
  | nil => rfl
  | cons d t ih =>
    have hcd : c ≠ d := fun he => hc (he ▸ List.mem_cons_self d t)
    have hct : c ∉ t := fun ht => hc (List.mem_cons_of_mem d ht)
    rw [List.foldl_cons]
    rw [ih (mgr.disconnect d) hct]
    exact disconnect_users_lookup_ne hcd

/-- The disconnect fold deregisters every websocket in the list. -/
theorem foldl_disconnect_lookup_none_of_mem (ds : List Nat)
    (mgr : ConnMgr) (hpos : ConnMgrPos mgr) (c : Nat) (hc : c ∈ ds) :
    alistLookup (ds.foldl (fun m w =>
      ConnMgr.disconnect m w) mgr).connection_users c = none := by
  induction ds generalizing mgr with
  | nil => cases hc
  | cons d t ih =>
    by_cases he : c = d
    · subst he
      have hnone : alistLookup
          (mgr.disconnect c).connection_users c = none := by
        cases hu : alistLookup mgr.connection_users c with
        | none => rw [disconnect_eq_of_none hu]; exact hu
        | some uid =>
          exact disconnect_self_none hu
            (hpos (c, uid) (alistLookup_mem hu))
      exact foldl_disconnect_lookup_none_mono t (mgr.disconnect c) c hnone
    · have hct : c ∈ t := by
        rcases List.mem_cons.mp hc with hh | hh
        · exact absurd hh he
        · exact hh
      exact ih (mgr.disconnect d) (disconnect_pos hpos) hct

/-- Unfolding of send_personal_message for an offline user. -/
theorem send_personal_eq_of_none {mgr : ConnMgr} {sendOk : Nat → Bool}
    {uid : Nat} (h : alistLookup mgr.active_connections uid = none) :
    mgr.send_personal_message sendOk uid = (mgr, []) := by
  unfold ConnMgr.send_personal_message
  rw [h]

/-- Unfolding of send_personal_message when the user has a connection set. -/
theorem send_personal_eq_of_some {mgr : ConnMgr} {sendOk : Nat → Bool}
    {uid : Nat} {conns : List Nat}
    (h : alistLookup mgr.active_connections uid = some conns) :
    mgr.send_personal_message sendOk uid =
      ((conns.filter (fun c => !sendOk c)).foldl
        (fun m c => ConnMgr.disconnect m c) mgr,
       conns.filter sendOk) := by
  unfold ConnMgr.send_personal_message
  rw [h]

/-- A well-formed operation run preserves the registry invariant and id positivity. -/
theorem run_inv_pos (ops : List CMOp) (mgr : ConnMgr)
    (hinv : ConnMgrInv mgr) (hpos : ConnMgrPos mgr)
    (hfresh : freshRun mgr ops = true) :
    ConnMgrInv (mgr.run ops) ∧ ConnMgrPos (mgr.run ops) := by
  induction ops generalizing mgr with
  | nil => exact ⟨hinv, hpos⟩
  | cons op rest ih =>
    unfold ConnMgr.run
    rw [List.foldl_cons]
    cases op with
    | connect ws uid =>
      have hparts : ((alistLookup mgr.connection_users ws).isNone &&
          (uid != 0) && freshRun (CMOp.apply mgr (CMOp.connect ws uid))
            rest) = true := by
        simpa [freshRun] using hfresh
      rw [Bool.and_eq_true, Bool.and_eq_true] at hparts
      obtain ⟨⟨hn, hz⟩, hrest⟩ := hparts
      rw [Option.isNone_iff_eq_none] at hn
      rw [bne_iff_ne] at hz
      exact ih (CMOp.apply mgr (CMOp.connect ws uid))
        (connect_fresh_inv hinv hn) (connect_pos hpos hz) hrest
    | disconnect ws =>
      have hrest : freshRun (CMOp.apply mgr (CMOp.disconnect ws)) rest =
          true := by
        simpa [freshRun] using hfresh
      exact ih (CMOp.apply mgr (CMOp.disconnect ws))
        (disconnect_inv hinv) (disconnect_pos hpos) hrest

/-- is_connected holds exactly when the user has a non-empty connection set. -/
theorem is_connected_iff (mgr : ConnMgr) (uid : Nat) :
    mgr.is_connected uid = true ↔
      ∃ conns, alistLookup mgr.active_connections uid = some conns ∧
        conns ≠ [] := by
  unfold ConnMgr.is_connected
  cases h : alistLookup mgr.active_connections uid with
  | none => simp
  | some conns =>
    simp only [decide_eq_true_eq, Option.some.injEq]
    constructor
    · intro hlen
      exact ⟨conns, rfl, List.ne_nil_of_length_pos hlen⟩
    · rintro ⟨c, rfl, hne⟩
      exact List.length_pos.mpr hne

/-- Under the invariant, the connected-users list holds exactly the connected users. -/
theorem get_connected_users_iff {mgr : ConnMgr} (hinv : ConnMgrInv mgr)
    (uid : Nat) :
    uid ∈ mgr.get_connected_users ↔ mgr.is_connected uid = true := by
  unfold ConnMgr.get_connected_users
  constructor
  · intro h
    obtain ⟨p, hp, hpe⟩ := List.mem_map.mp h
    have hs : (mgr.active_connections.find?
        (fun q => q.1 == uid)).isSome = true :=
      List.find?_isSome.mpr ⟨p, hp, by simp [hpe]⟩
    obtain ⟨q, hq⟩ := Option.isSome_iff_exists.mp hs
    have hqm := List.mem_of_find?_eq_some hq
    have hqk := List.find?_some hq
    simp only [beq_iff_eq] at hqk
    have hlook : alistLookup mgr.active_connections uid = some q.2 := by
      unfold alistLookup
      rw [hq]
    rw [is_connected_iff]
    exact ⟨q.2, hlook, (hinv.2.2.1 q hqm).1⟩
  · intro h
    obtain ⟨conns, hc, hne⟩ := (is_connected_iff mgr uid).mp h
    exact List.mem_map.mpr ⟨(uid, conns), alistLookup_mem hc, rfl⟩

/-- Claim C1: whenever the `POST /chat/messages` handler succeeds, the
persisted message's `sender_id` is the id of the first active
SUPPORT-role user when the caller is an ADMIN, the receiver exists with
role USER and such a support user exists; in every other combination the
persisted `sender_id` is the caller's own id. -/
theorem admin_send_attributed_to_support
    (db : DB) (current : User) (receiver_id : Nat) (text : String)
    (order_id item_id : Option Nat) (next_id now : Nat) (db2 : DB)
    (m : Message)
    (hok : apiSendMessage db current receiver_id text order_id item_id
      next_id now = Except.ok (db2, m)) :
    m ∈ db2.messages ∧
    (∀ r s, current.role = UserRole.admin →
      findUser db receiver_id = some r → r.role = UserRole.user →
      firstActiveSupport db = some s → m.sender_id = s.id) ∧
    (¬ (current.role = UserRole.admin ∧
        (∃ r, findUser db receiver_id = some r ∧ r.role = UserRole.user) ∧
        (firstActiveSupport db).isSome = true) →
      m.sender_id = current.id) := by
  obtain ⟨hs, hr, hdb⟩ := send_message_ok hok
  refine ⟨by rw [hdb]; simp, ?_, ?_⟩
  · intro r s hrole hfr hru hsup
    rw [hs]
    unfold effectiveSenderId
    rw [hfr, hsup]
    simp [hrole, hru]
  · intro hneg
    rw [hs]
    unfold effectiveSenderId
    by_cases hrole : current.role = UserRole.admin
    · cases hfr : findUser db receiver_id with
      | none => simp [hrole, hfr]
      | some r =>
        by_cases hru : r.role = UserRole.user
        · cases hsup : firstActiveSupport db with
          | none => simp [hrole, hfr, hru, hsup]
          | some s => exact absurd ⟨hrole, ⟨r, hfr, hru⟩, by rw [hsup]; rfl⟩ hneg
        · simp [hrole, hfr, hru]
    · simp [hrole]

/-- Witness for claim C1: the admin's concrete send lands with the
support user's id as sender. -/
theorem admin_send_attributed_to_support_witness :
    c1Msg.sender_id = exSupport.id :=
  (admin_send_attributed_to_support dbWithSupport exAdmin 2 "hi" none none
    10 5 c1DBAfter c1Msg rfl).2.1 exCustomer exSupport rfl rfl rfl rfl

/-- Counterexample for claim C8: with an ADMIN caller, a USER-role
receiver and no active support user, the handler persists the message
with the admin's own id as sender and returns a plain success, with no
rejection and no fallback signal. -/
theorem admin_send_no_support_counterexample :
    apiSendMessage dbNoSupport exAdmin 2 "hi" none none 10 5 =
      Except.ok
        ({ users := [exAdmin, exCustomer], orders := [],
           messages := [c8Msg] }, c8Msg) ∧
    c8Msg.sender_id = exAdmin.id ∧
    exAdmin.role = UserRole.admin ∧
    findUser dbNoSupport 2 = some exCustomer ∧
    exCustomer.role = UserRole.user ∧
    firstActiveSupport dbNoSupport = none :=
  ⟨rfl, rfl, rfl, rfl, rfl, rfl⟩

/-- Claim C8 (amended): when the caller is an ADMIN, the receiver exists
with role USER and no active SUPPORT user exists, the send succeeds as a
plain success and the persisted message carries the admin's own id as
sender; the fallback is observable only through the echoed `sender_id`,
not through a rejection or an explicit signal. -/
theorem admin_send_no_support_falls_back_to_admin
    (db : DB) (current : User) (receiver_id : Nat) (text : String)
    (item_id : Option Nat) (next_id now : Nat) (r : User)
    (hrole : current.role = UserRole.admin)
    (hfr : findUser db receiver_id = some r)
    (hru : r.role = UserRole.user)
    (hsup : firstActiveSupport db = none) :
    apiSendMessage db current receiver_id text none item_id next_id now =
      Except.ok
        ({ db with messages := db.messages ++
            [{ id := next_id, sender_id := current.id,
               receiver_id := receiver_id, order_id := none,
               item_id := item_id, text := text, is_read := false,
               is_resolved := false, created_at := now }] },
         { id := next_id, sender_id := current.id,
           receiver_id := receiver_id, order_id := none,
           item_id := item_id, text := text, is_read := false,
           is_resolved := false, created_at := now }) := by
  have hes : effectiveSenderId db current receiver_id = current.id := by
    unfold effectiveSenderId
    rw [hfr, hsup]
    simp [hrole, hru]
  unfold apiSendMessage
  rw [hes]
  unfold ChatService.send_message
  rw [hfr]
  simp [optTruthy]

/-- Witness for the amended claim C8 at a concrete database. -/
theorem admin_send_no_support_falls_back_witness :
    apiSendMessage dbNoSupport exAdmin 2 "hi" none none 10 5 =
      Except.ok
        ({ dbNoSupport with messages := dbNoSupport.messages ++ [c8Msg] },
         c8Msg) :=
  admin_send_no_support_falls_back_to_admin dbNoSupport exAdmin 2 "hi"
    none 10 5 exCustomer rfl rfl rfl rfl

/-- Counterexample for claim C9: a client frame of the unknown type
"typing" is not answered with an error event; it produces no reply at
all. -/
theorem ws_unknown_frame_ignored_counterexample :
    handleClientFrame (some "typing") = [] ∧
    WsReply.errorUseHttpPost ∉ handleClientFrame (some "typing") := by
  constructor
  · rfl
  · intro h
    simp [handleClientFrame] at h

/-- Claim C9 (amended): a "ping" frame is answered with a pong, a
"message" frame is answered with the error event directing the client to
the HTTP POST endpoint, every other frame type is ignored with no reply,
and no client frame ever produces anything on the socket other than
those two replies. -/
theorem ws_frame_dispatch (t : Option String) :
    handleClientFrame (some "ping") = [WsReply.pong] ∧
    handleClientFrame (some "message") = [WsReply.errorUseHttpPost] ∧
    (t ≠ some "ping" → t ≠ some "message" → handleClientFrame t = []) ∧
    (∀ r ∈ handleClientFrame t,
      r = WsReply.pong ∨ r = WsReply.errorUseHttpPost) := by
  refine ⟨rfl, rfl, ?_, ?_⟩
  · intro h1 h2
    cases t with
    | none => rfl
    | some s =>
      have hs1 : s ≠ "ping" := fun e => h1 (by rw [e])
      have hs2 : s ≠ "message" := fun e => h2 (by rw [e])
      simp [handleClientFrame, hs1, hs2]
  · intro r hr
    cases t with
    | none => simp [handleClientFrame] at hr
    | some s =>
      by_cases h1 : s = "ping"
      · subst h1
        simp [handleClientFrame] at hr
        simp [hr]
      · by_cases h2 : s = "message"
        · subst h2
          simp [handleClientFrame] at hr
          simp [hr]
        · simp [handleClientFrame, h1, h2] at hr

/-- Witness for the amended claim C9: at the concrete unknown frame type
"typing" the dispatch produces no reply. -/
theorem ws_frame_dispatch_witness :
    handleClientFrame (some "typing") = [] :=
  (ws_frame_dispatch (some "typing")).2.2.1 (by decide) (by decide)

/-- Claim C2: reading an order-scoped thread fails with NotFound for an
absent order; for an existing order it succeeds exactly when the caller
is the owning buyer, an ADMIN, a SUPPORT user, or a SELLER owning an
item of the order, and raises an Authorization error in every other
case. -/
theorem order_thread_access_policy (db : DB) (oid uid : Nat)
    (role : UserRole) :
    (findOrder db oid = none →
      ChatService.get_order_chat db oid uid role =
        Except.error (ChatError.notFound "Order" oid)) ∧
    (∀ order, findOrder db oid = some order →
      (specCanViewOrderThread order uid role →
        ChatService.get_order_chat db oid uid role =
          Except.ok (orderMessages db oid)) ∧
      (¬ specCanViewOrderThread order uid role →
        ChatService.get_order_chat db oid uid role =
          Except.error ChatError.authorization)) := by
  constructor
  · intro h
    simp [ChatService.get_order_chat, h]
  · intro order h
    constructor
    · intro hv
      have hb := (orderChatHasAccess_iff order uid role).mpr hv
      simp [ChatService.get_order_chat, h, hb]
    · intro hv
      have hb : orderChatHasAccess order uid role = false := by
        rw [Bool.eq_false_iff]
        exact fun hb => hv ((orderChatHasAccess_iff order uid role).mp hb)
      simp [ChatService.get_order_chat, h, hb]

/-- Witness for claim C2: a seller owning no item of order 7 receives an
Authorization error. -/
theorem order_thread_access_policy_witness :
    ChatService.get_order_chat c2DB 7 5 UserRole.seller =
      Except.error ChatError.authorization :=
  ((order_thread_access_policy c2DB 7 5 UserRole.seller).2 c2Order
    rfl).2 (by decide)

/-- Counterexample for claim C3: repeating `mark_as_read` on the same id
set returns the full match count again, not 0 (the source never filters
on the current `is_read` value), while `is_read` does stay true. -/
theorem mark_as_read_repeat_count_counterexample :
    (ChatService.mark_as_read (ChatService.mark_as_read c3DB [1] 2).1
      [1] 2).2 = 1 ∧
    (ChatService.mark_as_read (ChatService.mark_as_read c3DB [1] 2).1
      [1] 2).2 ≠ 0 ∧
    (∀ m ∈ (ChatService.mark_as_read (ChatService.mark_as_read c3DB [1] 2).1
      [1] 2).1.messages, m.is_read = true) := by
  refine ⟨rfl, by decide, by decide⟩

/-- Claim C3 (amended): `mark_as_read` flips `is_read` to true exactly
for the messages of the id set addressed to the reader, leaves every
other message untouched, and returns the number of matching messages
whether or not they were already read; a second call on the same id set
leaves the state unchanged and returns that same count again, not 0. -/
theorem mark_as_read_spec (db : DB) (ids : List Nat) (uid : Nat) :
    ((ChatService.mark_as_read db ids uid).2 =
      (db.messages.filter (markPred ids uid)).length) ∧
    (∀ (i : Nat) (m : Message), db.messages[i]? = some m →
      markPred ids uid m = false →
      (ChatService.mark_as_read db ids uid).1.messages[i]? = some m) ∧
    (∀ (i : Nat) (m : Message), db.messages[i]? = some m →
      markPred ids uid m = true →
      (ChatService.mark_as_read db ids uid).1.messages[i]? =
        some { m with is_read := true }) ∧
    (ChatService.mark_as_read (ChatService.mark_as_read db ids uid).1 ids
        uid =
      ((ChatService.mark_as_read db ids uid).1,
        (ChatService.mark_as_read db ids uid).2)) := by
  have hpa : ∀ m, markPred ids uid (markApply ids uid m) =
      markPred ids uid m := by
    intro m
    unfold markApply
    by_cases h : markPred ids uid m = true
    · rw [if_pos h]
      rfl
    · rw [if_neg h]
  have hfa : ∀ m, markApply ids uid (markApply ids uid m) =
      markApply ids uid m := by
    intro m
    by_cases h : markPred ids uid m = true
    · unfold markApply
      rw [if_pos h, if_pos (show markPred ids uid { m with is_read := true } = true from h)]
    · unfold markApply
      rw [if_neg h, if_neg h]
  refine ⟨rfl, ?_, ?_, ?_⟩
  · intro i m hm hp
    have hma : markApply ids uid m = m := by
      unfold markApply; rw [hp]; rfl
    simp only [ChatService.mark_as_read, List.getElem?_map, hm,
      Option.map_some', hma]
  · intro i m hm hp
    have hma : markApply ids uid m = { m with is_read := true } := by
      unfold markApply; rw [hp]; rfl
    simp only [ChatService.mark_as_read, List.getElem?_map, hm,
      Option.map_some', hma]
  · unfold ChatService.mark_as_read
    simp only [Prod.mk.injEq]
    constructor
    · congr 1
      exact map_idem _ hfa _
    · rw [filter_map_invariant _ _ hpa, List.length_map]

/-- Witness for the amended claim C3 at a concrete database. -/
theorem mark_as_read_spec_witness :
    (ChatService.mark_as_read c3DB [1] 2).1.messages[0]? =
      some { c3Msg with is_read := true } :=
  (mark_as_read_spec c3DB [1] 2).2.2.1 0 c3Msg rfl rfl

/-- Claim C7: `resolve_conversation` counts exactly the not-yet-resolved
messages between the pair, deletes nothing, flags every message between
the pair as resolved, leaves other conversations untouched, and a second
call with no intervening sends returns count 0 with the state
unchanged. -/
theorem resolve_conversation_spec (db : DB) (u1 u2 : Nat) :
    ((ChatService.resolve_conversation db u1 u2).2 =
      (db.messages.filter (resolvePred u1 u2)).length) ∧
    ((ChatService.resolve_conversation db u1 u2).1.messages.length =
      db.messages.length) ∧
    ((ChatService.resolve_conversation db u1 u2).1.users = db.users ∧
      (ChatService.resolve_conversation db u1 u2).1.orders = db.orders) ∧
    (∀ m ∈ (ChatService.resolve_conversation db u1 u2).1.messages,
      betweenPair m u1 u2 = true → m.is_resolved = true) ∧
    (∀ (i : Nat) (m : Message), db.messages[i]? = some m →
      resolvePred u1 u2 m = false →
      (ChatService.resolve_conversation db u1 u2).1.messages[i]? = some m) ∧
    (ChatService.resolve_conversation
        (ChatService.resolve_conversation db u1 u2).1 u1 u2 =
      ((ChatService.resolve_conversation db u1 u2).1, 0)) := by
  have hrp : ∀ m, resolvePred u1 u2 (resolveApply u1 u2 m) = false := by
    intro m
    unfold resolveApply
    by_cases h : resolvePred u1 u2 m = true
    · rw [if_pos h]
      simp [resolvePred, betweenPair]
    · rw [if_neg h]
      simpa using h
  have hfa : ∀ m, resolveApply u1 u2 (resolveApply u1 u2 m) =
      resolveApply u1 u2 m := by
    intro m
    by_cases h : resolvePred u1 u2 m = true
    · unfold resolveApply
      rw [if_pos h]
      rw [if_neg (show ¬ resolvePred u1 u2 { m with is_resolved := true } =
        true from by simp [resolvePred])]
    · unfold resolveApply
      rw [if_neg h, if_neg h]
  refine ⟨rfl, by simp [ChatService.resolve_conversation], ⟨rfl, rfl⟩, ?_, ?_, ?_⟩
  · intro m hm hbp
    obtain ⟨m0, hm0, rfl⟩ := List.mem_map.mp hm
    unfold resolveApply at hbp ⊢
    by_cases h : resolvePred u1 u2 m0 = true
    · rw [if_pos h]
    · rw [if_neg h] at hbp ⊢
      have h2 : (betweenPair m0 u1 u2 && !m0.is_resolved) = false := by
        simpa [resolvePred] using h
      rw [hbp] at h2
      simpa using h2
  · intro i m hm hp
    have hma : resolveApply u1 u2 m = m := by
      unfold resolveApply; rw [hp]; rfl
    simp only [ChatService.resolve_conversation, List.getElem?_map, hm,
      Option.map_some', hma]
  · unfold ChatService.resolve_conversation
    simp only [Prod.mk.injEq]
    constructor
    · congr 1
      exact map_idem _ hfa _
    · have : (db.messages.map (resolveApply u1 u2)).filter
          (resolvePred u1 u2) = [] := by
        rw [List.filter_eq_nil_iff]
        intro a ha
        obtain ⟨m0, hm0, rfl⟩ := List.mem_map.mp ha
        rw [hrp m0]
        exact Bool.false_ne_true
      rw [this]
      rfl

/-- Claim C4: `get_conversation` returns the page selected by skip and
limit over the conversation's messages ordered newest-first by
`created_at`, reversed so the returned list is chronological
(oldest-first, here: sorted ascending by `created_at`), and returns as
total the count of all messages of the conversation under the same order
filter, independent of skip and limit. -/
theorem get_conversation_spec (db : DB) (u1 u2 : Nat) (oid : Option Nat)
    (skip limit : Nat) :
    (ChatService.get_conversation db u1 u2 oid skip limit).1 =
      (((sortByCreatedDesc (conversationMessages db u1 u2 oid)).drop
        skip).take limit).reverse ∧
    (ChatService.get_conversation db u1 u2 oid skip limit).2 =
      (conversationMessages db u1 u2 oid).length ∧
    List.Sorted createdAscRel
      (ChatService.get_conversation db u1 u2 oid skip limit).1 := by
  refine ⟨rfl, rfl, ?_⟩
  have h1 : List.Sorted createdDescRel
      (sortByCreatedDesc (conversationMessages db u1 u2 oid)) :=
    List.sorted_insertionSort createdDescRel _
  have h2 : List.Sorted createdDescRel
      (((sortByCreatedDesc (conversationMessages db u1 u2 oid)).drop
        skip).take limit) :=
    List.Pairwise.sublist
      ((List.take_sublist _ _).trans (List.drop_sublist _ _)) h1
  show List.Sorted createdAscRel
    ((((sortByCreatedDesc (conversationMessages db u1 u2 oid)).drop
      skip).take limit).reverse)
  rw [List.Sorted, List.pairwise_reverse]
  exact h2

/-- Witness for claim C7 at a concrete database. -/
theorem resolve_conversation_spec_witness :
    (ChatService.resolve_conversation c7DB 2 3).1.messages[1]? =
      some c7Msg2 ∧
    (ChatService.resolve_conversation
        (ChatService.resolve_conversation c7DB 2 3).1 2 3 =
      ((ChatService.resolve_conversation c7DB 2 3).1, 0)) :=
  ⟨(resolve_conversation_spec c7DB 2 3).2.2.2.2.1 1 c7Msg2 rfl rfl,
    (resolve_conversation_spec c7DB 2 3).2.2.2.2.2⟩

/-- Counterexample for claim C5: with one resolved unread message and one
non-resolved unread message from the same user, the queue entry's unread
count is 2, although only one unread message of the conversation is
non-resolved; the source's unread counter has no `is_resolved` filter. -/
theorem support_queue_unread_counts_resolved_counterexample :
    (ChatService.get_support_conversations c5DB 1 0 50).1 =
      [{ user_id := 2, last_message := some c5Msg2, unread_count := 2 }] ∧
    (c5DB.messages.filter (fun m => m.sender_id == 2 &&
      m.receiver_id == 1 && !m.is_read && !m.is_resolved)).length = 1 := by
  decide

/-- Claim C5 (amended): the support queue includes a user exactly when
they have at least one non-resolved message with the support identity,
and each entry's last message is the newest non-resolved message of that
conversation; the unread count, however, counts every unread message
from the user to the support identity, including already-resolved
ones. -/
theorem support_queue_spec (db : DB) (sid : Nat) :
    (∀ u, u ∈ supportCandidates db sid ↔
      ∃ m ∈ db.messages, m.is_resolved = false ∧
        ((m.sender_id = u ∧ m.receiver_id = sid) ∨
          (m.sender_id = sid ∧ m.receiver_id = u))) ∧
    (∀ skip limit : Nat,
      (ChatService.get_support_conversations db sid skip limit).2 =
        (supportCandidates db sid).length) ∧
    (∀ (skip limit : Nat) (e : SupportConvEntry),
      e ∈ (ChatService.get_support_conversations db sid skip limit).1 →
      e.user_id ∈ supportCandidates db sid ∧
      e.last_message = lastUnresolvedBetween db sid e.user_id ∧
      e.unread_count = supportUnreadCount db sid e.user_id ∧
      (∀ m, e.last_message = some m →
        m ∈ db.messages ∧ betweenPair m e.user_id sid = true ∧
        m.is_resolved = false ∧
        (∀ m2 ∈ db.messages, betweenPair m2 e.user_id sid = true →
          m2.is_resolved = false → m2.created_at ≤ m.created_at))) := by
  refine ⟨supportCandidates_mem db sid, ?_, ?_⟩
  · intro skip limit
    unfold ChatService.get_support_conversations
    simp only []
    rw [(List.perm_insertionSort _ _).length_eq, List.length_map]
  · intro skip limit e he
    unfold ChatService.get_support_conversations at he
    simp only [List.mem_map] at he
    obtain ⟨p, hp, rfl⟩ := he
    have hpc : p.1 ∈ supportCandidates db sid := by
      set sorted := List.insertionSort (fun a b => b.2 ≤ a.2)
        ((supportCandidates db sid).map (fun u =>
          (u, (mergeTimes (maxCreatedAt (sentToSupport db sid u))
            (maxCreatedAt (receivedFromSupport db sid u))).getD 0)))
        with hsrt
      have hsub : List.Sublist ((sorted.drop skip).take limit) sorted :=
        (List.take_sublist limit (sorted.drop skip)).trans
          (List.drop_sublist skip sorted)
      have h1 : p ∈ sorted := hsub.mem hp
      have h2 := (List.perm_insertionSort
        (fun a b : Nat × Nat => b.2 ≤ a.2)
        ((supportCandidates db sid).map (fun u =>
          (u, (mergeTimes (maxCreatedAt (sentToSupport db sid u))
            (maxCreatedAt (receivedFromSupport db sid u))).getD
            0)))).mem_iff.mp (hsrt ▸ h1)
      obtain ⟨u, hu, hup⟩ := List.mem_map.mp h2
      rw [← hup]
      exact hu
    refine ⟨hpc, rfl, rfl, ?_⟩
    intro m hm
    exact lastUnresolvedBetween_spec db sid p.1 m hm

/-- Witness for the amended claim C5 at a concrete database. -/
theorem support_queue_spec_witness :
    2 ∈ supportCandidates c5DB 1 ∧
    (ChatService.get_support_conversations c5DB 1 0 50).2 =
      (supportCandidates c5DB 1).length ∧
    ({ user_id := 2, last_message := some c5Msg2, unread_count := 2 } :
      SupportConvEntry).unread_count = supportUnreadCount c5DB 1 2 :=
  ⟨((support_queue_spec c5DB 1).1 2).mpr
      ⟨c5Msg2, by decide, rfl, Or.inl ⟨rfl, rfl⟩⟩,
    (support_queue_spec c5DB 1).2.1 0 50,
    ((support_queue_spec c5DB 1).2.2 0 50
      { user_id := 2, last_message := some c5Msg2, unread_count := 2 }
      (by decide)).2.2.1⟩

/-- Claim C6: for every user id and send, the registry delivers the event
to every live connection of the user whose send succeeds; a failing
connection is deregistered individually without blocking delivery to the
other connections, whose registration is untouched; sending to a user
with no entry returns the registry unchanged with no deliveries and no
error. Stated for consistent registry states (invariant plus positive
ids), which every reachable state satisfies. -/
theorem send_personal_message_spec (mgr : ConnMgr) (sendOk : Nat → Bool)
    (uid : Nat) (hinv : ConnMgrInv mgr) (hpos : ConnMgrPos mgr) :
    (alistLookup mgr.active_connections uid = none →
      mgr.send_personal_message sendOk uid = (mgr, [])) ∧
    (∀ conns, alistLookup mgr.active_connections uid = some conns →
      (mgr.send_personal_message sendOk uid).2 = conns.filter sendOk ∧
      (∀ c ∈ conns, sendOk c = true →
        c ∈ (mgr.send_personal_message sendOk uid).2 ∧
        alistLookup
          (mgr.send_personal_message sendOk uid).1.connection_users c =
          alistLookup mgr.connection_users c) ∧
      (∀ c ∈ conns, sendOk c = false →
        alistLookup
          (mgr.send_personal_message sendOk uid).1.connection_users c =
          none ∧
        (∀ p ∈ (mgr.send_personal_message
          sendOk uid).1.active_connections, c ∉ p.2))) := by
  refine ⟨fun h => send_personal_eq_of_none h, ?_⟩
  intro conns hc
  rw [send_personal_eq_of_some hc]
  refine ⟨rfl, ?_, ?_⟩
  · intro c hcm hok
    refine ⟨List.mem_filter.mpr ⟨hcm, hok⟩, ?_⟩
    have hnd : c ∉ conns.filter (fun c => !sendOk c) := by
      intro hmem
      have := (List.mem_filter.mp hmem).2
      rw [hok] at this
      cases this
    exact foldl_disconnect_lookup_of_not_mem _ mgr c hnd
  · intro c hcm hfail
    have hin : c ∈ conns.filter (fun c => !sendOk c) :=
      List.mem_filter.mpr ⟨hcm, by rw [hfail]; rfl⟩
    have hnone := foldl_disconnect_lookup_none_of_mem _ mgr hpos c hin
    refine ⟨hnone, ?_⟩
    intro p hp hcp
    have hfin := (foldl_disconnect_inv_pos
      (conns.filter (fun c => !sendOk c)) mgr hinv hpos).1
    have h4 := hfin.2.2.2.1 p hp c hcp
    rw [hnone] at h4
    cases h4

/-- Witness for claim C6: two sockets for user 1, one failing send. -/
theorem send_personal_message_spec_witness :
    (ConnMgr.send_personal_message
      ((ConnMgr.init.connect 5 1).connect 6 1) (fun c => c == 5) 1).2 =
      [5] ∧
    alistLookup (ConnMgr.send_personal_message
      ((ConnMgr.init.connect 5 1).connect 6 1)
      (fun c => c == 5) 1).1.connection_users 6 = none := by
  have h := (send_personal_message_spec
    ((ConnMgr.init.connect 5 1).connect 6 1) (fun c => c == 5) 1
    (by decide) (by decide)).2 [5, 6] rfl
  exact ⟨h.1.trans (by decide), (h.2.2 6 (by decide) (by decide)).1⟩

/-- Counterexample for claim C10: connecting one websocket handle under
user 1 and then (without disconnecting) under user 2 — both positive user
ids — leaves the handle in user 1's set while the reverse map assigns it
to user 2, so the bidirectional-map invariant fails and is_connected 1
reports a connection the reverse map no longer attributes to user 1. -/
theorem registry_invariant_counterexample :
    ¬ ConnMgrInv (ConnMgr.init.run [CMOp.connect 5 1, CMOp.connect 5 2]) ∧
    (ConnMgr.init.run [CMOp.connect 5 1, CMOp.connect 5 2]).is_connected
      1 = true ∧
    alistLookup (ConnMgr.init.run
      [CMOp.connect 5 1, CMOp.connect 5 2]).connection_users 5 =
      some 2 := by
  refine ⟨by decide, by decide, by decide⟩

/-- Claim C10 (amended): for every sequence of connect and disconnect
operations with positive user ids in which each connect's websocket is
not registered at that point, the registry maintains the consistency
invariant (non-empty sets, duplicate-free keys, bidirectional maps in
sync); consequently is_connected holds exactly for users with a
non-empty connection set, get_connected_users lists exactly those users,
and disconnect of an unregistered websocket is a no-op. -/
theorem registry_invariant_spec (ops : List CMOp) (mgr : ConnMgr)
    (hinv : ConnMgrInv mgr) (hpos : ConnMgrPos mgr)
    (hfresh : freshRun mgr ops = true) :
    ConnMgrInv (mgr.run ops) ∧ ConnMgrPos (mgr.run ops) ∧
    (∀ uid, (mgr.run ops).is_connected uid = true ↔
      ∃ conns, alistLookup (mgr.run ops).active_connections uid =
        some conns ∧ conns ≠ []) ∧
    (∀ uid, uid ∈ (mgr.run ops).get_connected_users ↔
      (mgr.run ops).is_connected uid = true) ∧
    (∀ ws, alistLookup (mgr.run ops).connection_users ws = none →
      (mgr.run ops).disconnect ws = mgr.run ops) := by
  obtain ⟨hi, hp⟩ := run_inv_pos ops mgr hinv hpos hfresh
  exact ⟨hi, hp, fun uid => is_connected_iff (mgr.run ops) uid,
    fun uid => get_connected_users_iff hi uid,
    fun ws h => disconnect_eq_of_none h⟩

/-- Witness for the amended claim C10 at a concrete operation run. -/
theorem registry_invariant_spec_witness :
    ConnMgrInv (ConnMgr.init.run
      [CMOp.connect 5 1, CMOp.connect 6 1, CMOp.disconnect 5]) ∧
    (ConnMgr.init.run
      [CMOp.connect 5 1, CMOp.connect 6 1,
        CMOp.disconnect 5]).is_connected 1 = true :=
  ⟨(registry_invariant_spec
      [CMOp.connect 5 1, CMOp.connect 6 1, CMOp.disconnect 5]
      ConnMgr.init (by decide) (by decide) (by decide)).1,
    ((registry_invariant_spec
      [CMOp.connect 5 1, CMOp.connect 6 1, CMOp.disconnect 5]
      ConnMgr.init (by decide) (by decide) (by decide)).2.2.1 1).mpr
      ⟨[6], by decide, by decide⟩⟩

end PCMarket
